import Mathlib

/-!
# Verification of the Tokenlay JS/TS SDK core logic

Shallow embedding of `src/utils.ts` and `src/client.ts` of the
`tokenlay/tokenlay-sdk-js` repository, together with theorems settling the
specification claims about the header codec, the configuration validator,
the URL builder and the client facade.

JavaScript records are modelled as association lists (`List (String × _)`);
JavaScript property reads on absent keys yield `undefined`, modelled by
`Option`/`JsValue.undefined`.  The host-language primitives used by
`parseTokenlayHeaders` (`parseFloat`, `parseInt`, `JSON.parse`) are external
collaborators and are passed in as a `JsHost` parameter; concrete instances
used in witnesses agree with the real JS primitives on every input they are
applied to.
-/

set_option autoImplicit false

namespace TokenlaySDK

/-! ## JavaScript value model -/

/-- JS truthiness of a possibly-`undefined` string value
(`undefined` and the empty string are falsy). -/
def jsTruthy : Option String → Bool
  | none => false
  | some s => s ≠ ""

/-- JS `x || d` where `x` is a possibly-`undefined` string and `d` a string
default: yields `x` when truthy, `d` otherwise. -/
def jsOrString (v : Option String) (d : String) : String :=
  match v with
  | some s => if s = "" then d else s
  | none => d

/-- JS numbers as produced by `parseFloat`/`parseInt`: either `NaN` or a
finite value (modelled as a rational; float rounding is irrelevant to every
claim below). -/
inductive JsNum where
  | nan
  | val (q : ℚ)
deriving DecidableEq, Repr

/-- The JS values appearing in the records this SDK builds. -/
inductive JsValue where
  | undefined
  | str (s : String)
  | bool (b : Bool)
  | num (n : JsNum)
  | arr (elems : List String)
deriving DecidableEq, Repr

/-- Property read on a JS object (association list): the first binding wins,
absent keys read as `undefined`. -/
def getField (o : List (String × JsValue)) (k : String) : JsValue :=
  match o.find? (fun kv => kv.1 == k) with
  | some kv => kv.2
  | none => .undefined

/-- `headers[k]` on a JS string record: `some` value or `none` (`undefined`). -/
def lookupHeader (headers : List (String × String)) (k : String) : Option String :=
  match headers.find? (fun kv => kv.1 == k) with
  | some kv => some kv.2
  | none => none

/-- JS property update `o[k] = v`: overwrite in place when the key exists,
append otherwise (JS property-order semantics). -/
def objSet (o : List (String × String)) (k v : String) : List (String × String) :=
  if (o.find? (fun kv => kv.1 == k)).isSome then
    o.map fun kv => if kv.1 == k then (kv.1, v) else kv
  else o ++ [(k, v)]

/-- `Object.assign(o, src)`: fold `objSet` over the source's entries. -/
def objAssign (o src : List (String × String)) : List (String × String) :=
  src.foldl (fun acc kv => objSet acc kv.1 kv.2) o

/-! ## `src/utils.ts` -/

/-- Constant `DEFAULT_TOKENLAY_BASE_URL` from `src/utils.ts`. -/
def DEFAULT_TOKENLAY_BASE_URL : String := "https://api.tokenlay.com"

/-- Constant `DEFAULT_PROVIDER_API_BASE` from `src/utils.ts`. -/
def DEFAULT_PROVIDER_API_BASE : String := "https://api.openai.com/v1"

/-- `metadataToHeaders` from `src/utils.ts`: for each entry of the metadata
object whose value is not `undefined`, set `headers["x-tokenlay-" + key] =
value`.  A JS object's entries have pairwise distinct keys, so inserting into
the fresh `headers` object never overwrites and `filterMap` is exact. -/
def metadataToHeaders (metadata : List (String × Option String)) : List (String × String) :=
  metadata.filterMap fun kv =>
    match kv.2 with
    | some v => some ("x-tokenlay-" ++ kv.1, v)
    | none => none

/-- Error message thrown by `validateConfig` for a missing `tokenlayKey`. -/
def tokenlayKeyRequiredMsg : String :=
  "tokenlayKey is required. Get your free key at https://tokenlay.com"

/-- Error message thrown by `validateConfig` for a missing `providerApiKey`. -/
def providerApiKeyRequiredMsg : String :=
  "providerApiKey is required. This should be your OpenAI API key or other provider key."

/-- `validateConfig` from `src/utils.ts`: throws (`.error`) when
`config.tokenlayKey` is falsy, then when `config.providerApiKey` is falsy. -/
def validateConfig (tokenlayKey providerApiKey : Option String) : Except String Unit :=
  if !jsTruthy tokenlayKey then Except.error tokenlayKeyRequiredMsg
  else if !jsTruthy providerApiKey then Except.error providerApiKeyRequiredMsg
  else Except.ok ()

/-- The host-language primitives `parseTokenlayHeaders` calls.
`parseFloat`/`parseInt` never throw in JS; `JSON.parse` throws on invalid
input (`.error`), and on the wire contract's well-formed inputs returns an
array of strings. -/
structure JsHost where
  parseFloat : String → JsNum
  parseInt : String → JsNum
  jsonParse : String → Except String (List String)

/-- A possibly-`undefined` string as a JS value. -/
def optStrToJs : Option String → JsValue
  | none => .undefined
  | some s => .str s

/-- The `warnings` field expression of `parseTokenlayHeaders`:
`headers["x-tokenlay-warnings"] ? JSON.parse(headers["x-tokenlay-warnings"]) :
undefined`.  The header is truthy exactly when present and non-empty; a
`JSON.parse` throw propagates (`.error`). -/
def tokenlayWarningsField (host : JsHost) (headers : List (String × String)) :
    Except String JsValue :=
  match lookupHeader headers "x-tokenlay-warnings" with
  | some s =>
      if s = "" then Except.ok JsValue.undefined
      else (host.jsonParse s).map JsValue.arr
  | none => Except.ok JsValue.undefined

/-- The object literal `parseTokenlayHeaders` builds, as an association list
in source field order, given the already-evaluated `warnings` field.
The TS cast on `ruleAction` is compile-time only: at runtime the field holds
the raw header string, defaulted by `||` to `"allow"`. -/
def tokenlayMetadataLit (host : JsHost) (headers : List (String × String))
    (warnings : JsValue) : List (String × JsValue) :=
  [("ruleId", optStrToJs (lookupHeader headers "x-tokenlay-rule-id")),
   ("ruleAction", .str (jsOrString (lookupHeader headers "x-tokenlay-rule-action") "allow")),
   ("limitExceeded", .bool (lookupHeader headers "x-tokenlay-limit-exceeded" == some "true")),
   ("cost", .num (host.parseFloat (jsOrString (lookupHeader headers "x-tokenlay-cost") "0"))),
   ("tokensUsed", .num (host.parseInt (jsOrString (lookupHeader headers "x-tokenlay-tokens-used") "0"))),
   ("inputTokens", .num (host.parseInt (jsOrString (lookupHeader headers "x-tokenlay-input-tokens") "0"))),
   ("outputTokens", .num (host.parseInt (jsOrString (lookupHeader headers "x-tokenlay-output-tokens") "0"))),
   ("duration", .num (host.parseInt (jsOrString (lookupHeader headers "x-tokenlay-duration") "0"))),
   ("warnings", warnings)]

/-- `parseTokenlayHeaders` from `src/utils.ts`: evaluate the object literal's
fields (only the `warnings` field can throw — the host numeric parsers never
do) and return the literal; a throw aborts the whole literal and propagates
to the caller. -/
def parseTokenlayHeaders (host : JsHost) (headers : List (String × String)) :
    Except String (List (String × JsValue)) :=
  (tokenlayWarningsField host headers).map (tokenlayMetadataLit host headers)

/-- `s.replace(/\/$/, "")`: drop a single trailing slash when present. -/
def stripTrailingSlash (s : String) : String :=
  if s.data.getLast? = some '/' then String.mk s.data.dropLast else s

/-- `s.replace(/^\//, "")`: drop a single leading slash when present. -/
def stripLeadingSlash (s : String) : String :=
  if s.data.head? = some '/' then String.mk s.data.tail else s

/-- `buildTokenlayUrl` from `src/utils.ts`. -/
def buildTokenlayUrl (baseUrl endpoint : String) : String :=
  stripTrailingSlash baseUrl ++ "/v1/" ++ stripLeadingSlash endpoint

/-! ## `src/client.ts` -/

/-- `TokenlayOpenAIOptions` from `src/types.ts` (the two credentials are
required by the TS type but may still be empty strings; every other field is
optional). -/
structure TokenlayOpenAIOptions where
  tokenlayKey : String
  providerApiKey : String
  providerApiBase : Option String := none
  tokenlayBaseUrl : Option String := none
  timeout : Option Nat := none
  maxRetries : Option Nat := none
  metadata : Option (List (String × Option String)) := none
  extraHeaders : Option (List (String × String)) := none

/-- JS `n || d` for an optional non-negative numeric option: `undefined` and
`0` are falsy and yield the default. -/
def jsOrNat : Option Nat → Nat → Nat
  | none, d => d
  | some n, d => if n = 0 then d else n

/-- The `config` record the constructor stores after applying defaults. -/
structure EffectiveConfig where
  tokenlayKey : String
  providerApiKey : String
  providerApiBase : String
  tokenlayBaseUrl : String
  timeout : Nat
  maxRetries : Nat
  metadata : Option (List (String × Option String))
  extraHeaders : Option (List (String × String))
deriving DecidableEq

/-- The argument record passed to `new OpenAI({...})` by the constructor. -/
structure OpenAIClientInit where
  apiKey : String
  baseURL : String
  timeout : Nat
  maxRetries : Nat
  defaultHeaders : List (String × String)
deriving DecidableEq

/-- A constructed `TokenlayOpenAI` instance: its stored config and its
internally-owned wrapped OpenAI client. -/
structure TokenlayClient where
  config : EffectiveConfig
  openaiClient : OpenAIClientInit
deriving DecidableEq

/-- `buildDefaultHeaders` from `src/client.ts`: control headers, then global
metadata headers, then extra headers, merged with `Object.assign`. -/
def buildDefaultHeaders (cfg : EffectiveConfig) : List (String × String) :=
  let headers := [("x-tokenlay-provider-key", cfg.providerApiKey),
                  ("x-tokenlay-provider-base", cfg.providerApiBase)]
  let headers :=
    match cfg.metadata with
    | some md => objAssign headers (metadataToHeaders md)
    | none => headers
  match cfg.extraHeaders with
  | some eh => objAssign headers eh
  | none => headers

/-- The `TokenlayOpenAI` constructor from `src/client.ts`: validates first
(a throw aborts construction, so no client is created), then derives the
effective config by applying `||` defaults, then builds the wrapped OpenAI
client pointed at `buildTokenlayUrl(tokenlayBaseUrl, "")`. -/
def mkTokenlayOpenAI (options : TokenlayOpenAIOptions) : Except String TokenlayClient := do
  validateConfig (some options.tokenlayKey) (some options.providerApiKey)
  let config : EffectiveConfig :=
    { tokenlayKey := options.tokenlayKey,
      providerApiKey := options.providerApiKey,
      providerApiBase := jsOrString options.providerApiBase DEFAULT_PROVIDER_API_BASE,
      tokenlayBaseUrl := jsOrString options.tokenlayBaseUrl DEFAULT_TOKENLAY_BASE_URL,
      timeout := jsOrNat options.timeout 60000,
      maxRetries := jsOrNat options.maxRetries 2,
      metadata := options.metadata,
      extraHeaders := options.extraHeaders }
  pure { config := config,
         openaiClient :=
           { apiKey := config.tokenlayKey,
             baseURL := buildTokenlayUrl config.tokenlayBaseUrl "",
             timeout := config.timeout,
             maxRetries := config.maxRetries,
             defaultHeaders := buildDefaultHeaders config } }

/-- The part of the wrapped SDK's resolved chat response that
`chat.completions.create` inspects: its `_request_id` field
(`none` when the field is absent). -/
structure RawChatResponse where
  requestId : Option String
deriving DecidableEq

/-- The response object after `chat.completions.create` returns it: the raw
response, possibly mutated with a `_tokenlay` field. -/
structure ChatCompletionResult where
  raw : RawChatResponse
  tokenlay : Option (List (String × JsValue))
deriving DecidableEq

/-- The metadata literal `chat.completions.create` attaches
(`src/client.ts` lines 115–124): fixed defaults, and no `warnings` key. -/
def stubTokenlayMetadata : List (String × JsValue) :=
  [("ruleId", .undefined), ("ruleAction", .str "allow"), ("limitExceeded", .bool false),
   ("cost", .num (.val 0)), ("tokensUsed", .num (.val 0)), ("inputTokens", .num (.val 0)),
   ("outputTokens", .num (.val 0)), ("duration", .num (.val 0))]

/-- The post-resolution step of `chat.completions.create` from
`src/client.ts`: when `response._request_id` is truthy, mutate the response
by attaching `_tokenlay := stubTokenlayMetadata`; otherwise leave it as is. -/
def createChatCompletion (response : RawChatResponse) : ChatCompletionResult :=
  if jsTruthy response.requestId then
    { raw := response, tokenlay := some stubTokenlayMetadata }
  else
    { raw := response, tokenlay := none }

/-- `getTokenlayMetadata` from `src/client.ts`:
`response._tokenlay || null`.  The attached record is an object and hence
truthy, so this is exactly the stored field, with `null` (`none`) for an
absent field. -/
def getTokenlayMetadata (response : ChatCompletionResult) :
    Option (List (String × JsValue)) :=
  match response.tokenlay with
  | some md => some md
  | none => none

/-- A `fetch` response as `healthCheck` consumes it. -/
structure JsResponse where
  status : Nat
  statusText : String
deriving DecidableEq

/-- WHATWG fetch: `Response.ok` holds exactly for statuses 200–299. -/
def JsResponse.ok (r : JsResponse) : Bool :=
  200 ≤ r.status && r.status < 300

/-- Outcome of the `fetch` call inside `healthCheck`: either the promise
resolves with a response, or it rejects; on rejection, `some msg` when the
thrown value is an `Error` carrying `msg`, `none` for a non-`Error` throw. -/
inductive FetchOutcome where
  | success (response : JsResponse)
  | failure (errorMessage : Option String)
deriving DecidableEq

/-- The value `healthCheck` resolves to. -/
structure HealthResult where
  status : String
  message : Option String
deriving DecidableEq

/-- The arguments `healthCheck` passes to `fetch`. -/
structure FetchRequest where
  url : String
  headers : List (String × String)
deriving DecidableEq

/-- The request issued by `healthCheck` in `src/client.ts`:
`fetch(buildTokenlayUrl(config.tokenlayBaseUrl, "health"),
{headers: {Authorization: "Bearer " + config.tokenlayKey}})`. -/
def healthCheckRequest (cfg : EffectiveConfig) : FetchRequest :=
  { url := buildTokenlayUrl cfg.tokenlayBaseUrl "health",
    headers := [("Authorization", "Bearer " ++ cfg.tokenlayKey)] }

/-- The result computation of `healthCheck` in `src/client.ts`, as a function
of the fetch outcome: `ok` responses yield `{status: "ok"}`, other responses
yield the HTTP status line, and any rejection is caught and converted. -/
def healthCheck (cfg : EffectiveConfig) (outcome : FetchOutcome) : HealthResult :=
  match outcome with
  | .success r =>
      if r.ok then { status := "ok", message := none }
      else { status := "error",
             message := some ("HTTP " ++ toString r.status ++ ": " ++ r.statusText) }
  | .failure (some msg) => { status := "error", message := some msg }
  | .failure none => { status := "error", message := some "Unknown error" }

/-- A concrete host for witnesses and counterexamples.  It agrees with the
real JS primitives on every input the theorems below apply it to:
`parseFloat("0") = 0`, `parseInt("0", 10) = 0`, and `JSON.parse` throws on
`""` and on `"not-json"`/`"deny"`-like non-JSON strings. -/
def sampleHost : JsHost :=
  { parseFloat := fun s => if s = "0" then .val 0 else .nan,
    parseInt := fun s => if s = "0" then .val 0 else .nan,
    jsonParse := fun _ => .error "Unexpected token in JSON" }

/-! ## Auxiliary notions used to state the claims -/

/-- Number of headers in a header object carrying a given name. -/
def countKeys (headers : List (String × String)) (k : String) : Nat :=
  (headers.filter (fun kv => kv.1 == k)).length

/-- ASCII lowercasing of a name, character by character. -/
def lowerAscii (s : String) : String :=
  String.mk (s.data.map Char.toLower)

/-- Key-set equality up to header-name case: the two key lists contain the
same names after ASCII lowercasing. -/
def keySetMatchesModCase (l1 l2 : List String) : Bool :=
  (l1.map lowerAscii).all (fun s => (l2.map lowerAscii).contains s) &&
  (l2.map lowerAscii).all (fun s => (l1.map lowerAscii).contains s)

/-- A concrete effective configuration (the integration example's local
proxy base URL) used for closed evaluations of the client facade. -/
def sampleConfig : EffectiveConfig :=
  { tokenlayKey := "tk_test_123",
    providerApiKey := "sk-test-456",
    providerApiBase := DEFAULT_PROVIDER_API_BASE,
    tokenlayBaseUrl := "http://localhost:3000",
    timeout := 60000,
    maxRetries := 2,
    metadata := none,
    extraHeaders := none }

/-- Constructor options with explicitly supplied zero `timeout` and
`maxRetries`. -/
def sampleZeroOptions : TokenlayOpenAIOptions :=
  { tokenlayKey := "tk_test_123",
    providerApiKey := "sk-test-456",
    timeout := some 0,
    maxRetries := some 0 }

/-! ## Helper lemmas -/

theorem stripTrailingSlash_no_slash {b : String} (hb : b.data.getLast? ≠ some '/') :
    stripTrailingSlash b = b := by
  simp [stripTrailingSlash, hb]

theorem stripTrailingSlash_append_slash (b : String) :
    stripTrailingSlash (b ++ "/") = b := by
  have hd : (b ++ "/").data = b.data ++ ['/'] := String.data_append ..
  simp [stripTrailingSlash, hd, List.getLast?_concat, List.dropLast_concat]

theorem stripLeadingSlash_no_slash {e : String} (he : e.data.head? ≠ some '/') :
    stripLeadingSlash e = e := by
  simp [stripLeadingSlash, he]

theorem stripLeadingSlash_cons_slash (e : String) :
    stripLeadingSlash ("/" ++ e) = e := by
  have hd : ("/" ++ e).data = '/' :: e.data := String.data_append ..
  simp [stripLeadingSlash, hd]

theorem xTokenlayName_injective {a b : String}
    (h : "x-tokenlay-" ++ a = "x-tokenlay-" ++ b) : a = b := by
  have hd := congrArg String.data h
  rw [String.data_append, String.data_append] at hd
  have hab := List.append_cancel_left hd
  ext1
  exact hab

theorem metadataToHeaders_cons_some (k v : String) (rest : List (String × Option String)) :
    metadataToHeaders ((k, some v) :: rest) =
      ("x-tokenlay-" ++ k, v) :: metadataToHeaders rest := rfl

theorem metadataToHeaders_cons_none (k : String) (rest : List (String × Option String)) :
    metadataToHeaders ((k, none) :: rest) = metadataToHeaders rest := rfl

theorem countKeys_cons (p : String × String) (hs : List (String × String)) (k : String) :
    countKeys (p :: hs) k = (if p.1 == k then 1 else 0) + countKeys hs k := by
  by_cases h : (p.1 == k) = true
  · simp [countKeys, List.filter_cons, h, Nat.add_comm]
  · simp [countKeys, List.filter_cons, h]

theorem mem_metadataToHeaders {m : List (String × Option String)} {p : String × String} :
    p ∈ metadataToHeaders m ↔ ∃ k, (k, some p.2) ∈ m ∧ p.1 = "x-tokenlay-" ++ k := by
  simp only [metadataToHeaders, List.mem_filterMap]
  constructor
  · rintro ⟨⟨k, ov⟩, hmem, heq⟩
    cases ov with
    | none => simp at heq
    | some v =>
        have hpv : ("x-tokenlay-" ++ k, v) = p := by simpa using heq
        subst hpv
        exact ⟨k, hmem, rfl⟩
  · rintro ⟨k, hk, hp⟩
    exact ⟨(k, some p.2), hk, by simp [← hp]⟩

theorem countKeys_metadataToHeaders_zero {m : List (String × Option String)} {k : String}
    (hk : k ∉ m.map Prod.fst) :
    countKeys (metadataToHeaders m) ("x-tokenlay-" ++ k) = 0 := by
  rw [countKeys, List.length_eq_zero, List.filter_eq_nil_iff]
  intro p hp
  rcases mem_metadataToHeaders.1 hp with ⟨k', hk', hpk⟩
  have hne : k' ≠ k := fun h => hk (h ▸ List.mem_map_of_mem Prod.fst hk')
  rw [hpk]
  simp only [beq_iff_eq]
  exact fun h => hne (xTokenlayName_injective h)

theorem countKeys_metadataToHeaders_one {m : List (String × Option String)} {k v : String}
    (hnd : (m.map Prod.fst).Nodup) (hkv : (k, some v) ∈ m) :
    countKeys (metadataToHeaders m) ("x-tokenlay-" ++ k) = 1 := by
  induction m with
  | nil => simp at hkv
  | cons kv rest ih =>
    obtain ⟨k', ov⟩ := kv
    rw [List.map_cons, List.nodup_cons] at hnd
    obtain ⟨hk', hnd'⟩ := hnd
    rcases List.mem_cons.1 hkv with heq | hmem
    · injection heq with h1 h2
      subst h1
      subst h2
      rw [metadataToHeaders_cons_some, countKeys_cons]
      simp [countKeys_metadataToHeaders_zero hk']
    · have hkmem : k ∈ rest.map Prod.fst := by
        have := List.mem_map_of_mem Prod.fst hmem
        simpa using this
      have hkne : k' ≠ k := fun h => hk' (h ▸ hkmem)
      cases ov with
      | none => rw [metadataToHeaders_cons_none]; exact ih hnd' hmem
      | some v' =>
          rw [metadataToHeaders_cons_some, countKeys_cons]
          have hb : ("x-tokenlay-" ++ k' == "x-tokenlay-" ++ k) = false := by
            rw [beq_eq_false_iff_ne]
            exact fun h => hkne (xTokenlayName_injective h)
          simp [hb, ih hnd' hmem]

theorem countKeys_metadataToHeaders_absent {m : List (String × Option String)} {k : String}
    (hnd : (m.map Prod.fst).Nodup) (hk : (k, none) ∈ m) :
    countKeys (metadataToHeaders m) ("x-tokenlay-" ++ k) = 0 := by
  induction m with
  | nil => simp at hk
  | cons kv rest ih =>
    obtain ⟨k', ov⟩ := kv
    rw [List.map_cons, List.nodup_cons] at hnd
    obtain ⟨hk', hnd'⟩ := hnd
    rcases List.mem_cons.1 hk with heq | hmem
    · injection heq with h1 h2
      subst h1
      subst h2
      rw [metadataToHeaders_cons_none]
      exact countKeys_metadataToHeaders_zero hk'
    · have hkmem : k ∈ rest.map Prod.fst := by
        have := List.mem_map_of_mem Prod.fst hmem
        simpa using this
      have hkne : k' ≠ k := fun h => hk' (h ▸ hkmem)
      cases ov with
      | none => rw [metadataToHeaders_cons_none]; exact ih hnd' hmem
      | some v' =>
          rw [metadataToHeaders_cons_some, countKeys_cons]
          have hb : ("x-tokenlay-" ++ k' == "x-tokenlay-" ++ k) = false := by
            rw [beq_eq_false_iff_ne]
            exact fun h => hkne (xTokenlayName_injective h)
          simp [hb, ih hnd' hmem]

/-! ## Claim theorems -/

/-- **C8**: for a base with no trailing slash and an endpoint with no leading
slash, `buildTokenlayUrl` gives the same result — stripped base, then
`"/v1/"`, then stripped endpoint — on all four trailing/no-trailing ×
leading/no-leading combinations of the same logical pair. -/
theorem buildTokenlayUrl_slash_invariant (b e : String)
    (hb : b.data.getLast? ≠ some '/') (he : e.data.head? ≠ some '/') :
    buildTokenlayUrl b e = b ++ "/v1/" ++ e ∧
    buildTokenlayUrl (b ++ "/") e = b ++ "/v1/" ++ e ∧
    buildTokenlayUrl b ("/" ++ e) = b ++ "/v1/" ++ e ∧
    buildTokenlayUrl (b ++ "/") ("/" ++ e) = b ++ "/v1/" ++ e := by
  unfold buildTokenlayUrl
  rw [stripTrailingSlash_no_slash hb, stripLeadingSlash_no_slash he,
      stripTrailingSlash_append_slash, stripLeadingSlash_cons_slash]
  exact ⟨rfl, rfl, rfl, rfl⟩

/-- Witness for C8 at the spec's example `b = "https://h"`, `e = "p"`. -/
theorem buildTokenlayUrl_slash_invariant_witness :
    buildTokenlayUrl "https://h/" "/p" = "https://h/v1/p" ∧
    buildTokenlayUrl "https://h" "/p" = "https://h/v1/p" ∧
    buildTokenlayUrl "https://h/" "p" = "https://h/v1/p" ∧
    buildTokenlayUrl "https://h" "p" = "https://h/v1/p" := by
  obtain ⟨h1, h2, h3, h4⟩ :=
    buildTokenlayUrl_slash_invariant "https://h" "p" (by decide) (by decide)
  exact ⟨h4, h3, h2, h1⟩

/-- **C9**: the encoder emits, for each key of the metadata map with a
defined value, exactly one header named `x-tokenlay-<key>` carrying the
unchanged value; keys with absent values produce no header at all; every
emitted header arises this way; and the empty map encodes to the empty
header map. -/
theorem metadataToHeaders_spec (m : List (String × Option String))
    (hnd : (m.map Prod.fst).Nodup) :
    metadataToHeaders [] = [] ∧
    (∀ k v, (k, some v) ∈ m →
      countKeys (metadataToHeaders m) ("x-tokenlay-" ++ k) = 1 ∧
      ("x-tokenlay-" ++ k, v) ∈ metadataToHeaders m) ∧
    (∀ k, (k, none) ∈ m →
      countKeys (metadataToHeaders m) ("x-tokenlay-" ++ k) = 0) ∧
    (∀ p ∈ metadataToHeaders m, ∃ k v, (k, some v) ∈ m ∧ p = ("x-tokenlay-" ++ k, v)) := by
  refine ⟨rfl,
          fun k v hkv => ⟨countKeys_metadataToHeaders_one hnd hkv,
                          mem_metadataToHeaders.2 ⟨k, hkv, rfl⟩⟩,
          fun k hk => countKeys_metadataToHeaders_absent hnd hk,
          fun p hp => ?_⟩
  rcases mem_metadataToHeaders.1 hp with ⟨k, hk, hpk⟩
  exact ⟨k, p.2, hk, Prod.ext hpk rfl⟩

/-- Witness for C9 at the spec's example `{a: "1", b: undefined}`. -/
theorem metadataToHeaders_spec_witness :
    metadataToHeaders [("a", some "1"), ("b", none)] = [("x-tokenlay-a", "1")] ∧
    countKeys (metadataToHeaders [("a", some "1"), ("b", none)]) "x-tokenlay-a" = 1 ∧
    countKeys (metadataToHeaders [("a", some "1"), ("b", none)]) "x-tokenlay-b" = 0 := by
  have h := metadataToHeaders_spec [("a", some "1"), ("b", none)] (by decide)
  exact ⟨by decide, (h.2.1 "a" "1" (by decide)).1, h.2.2.1 "b" (by decide)⟩

/-- **C7**: `validateConfig` fails naming `tokenlayKey` whenever that field
is missing or empty, checked before the provider credential; when
`tokenlayKey` is present and non-empty but `providerApiKey` is missing or
empty it fails naming `providerApiKey`; and the constructor runs this check
before building the wrapped client, so failed construction returns the
validation error and produces no client value. -/
theorem validateConfig_order (tk pk : Option String) (o : TokenlayOpenAIOptions) :
    (jsTruthy tk = false → validateConfig tk pk = Except.error tokenlayKeyRequiredMsg) ∧
    (jsTruthy tk = true → jsTruthy pk = false →
      validateConfig tk pk = Except.error providerApiKeyRequiredMsg) ∧
    (o.tokenlayKey = "" → mkTokenlayOpenAI o = Except.error tokenlayKeyRequiredMsg) ∧
    (o.tokenlayKey ≠ "" → o.providerApiKey = "" →
      mkTokenlayOpenAI o = Except.error providerApiKeyRequiredMsg) := by
  refine ⟨fun h1 => ?_, fun h1 h2 => ?_, fun h1 => ?_, fun h1 h2 => ?_⟩
  · simp [validateConfig, h1]
  · simp [validateConfig, h1, h2]
  · have hfa : jsTruthy (some o.tokenlayKey) = false := by simp [jsTruthy, h1]
    simp [mkTokenlayOpenAI, validateConfig, hfa, Bind.bind, Except.bind]
  · have htr : jsTruthy (some o.tokenlayKey) = true := by simp [jsTruthy, h1]
    have hfa : jsTruthy (some o.providerApiKey) = false := by simp [jsTruthy, h2]
    simp [mkTokenlayOpenAI, validateConfig, htr, hfa, Bind.bind, Except.bind]

/-- Witness for C7 at the spec's examples. -/
theorem validateConfig_order_witness :
    validateConfig none (some "x") = Except.error tokenlayKeyRequiredMsg ∧
    validateConfig (some "x") none = Except.error providerApiKeyRequiredMsg ∧
    mkTokenlayOpenAI { tokenlayKey := "", providerApiKey := "sk-test-456" } =
      Except.error tokenlayKeyRequiredMsg ∧
    mkTokenlayOpenAI { tokenlayKey := "tk_test_123", providerApiKey := "" } =
      Except.error providerApiKeyRequiredMsg := by
  have h1 := validateConfig_order none (some "x")
    { tokenlayKey := "", providerApiKey := "sk-test-456" }
  have h2 := validateConfig_order (some "x") none
    { tokenlayKey := "tk_test_123", providerApiKey := "" }
  exact ⟨h1.1 (by decide), h2.2.1 (by decide) (by decide),
         h1.2.2.1 rfl, h2.2.2.2 (by decide) rfl⟩

/-- **C10**: constructing a client with explicitly supplied `timeout: 0` and
`maxRetries: 0` yields effective `timeout = 60000` and `maxRetries = 2`, on
the stored config and on the wrapped client, and the construction result is
identical to the one with both fields absent. -/
theorem mkTokenlayOpenAI_zero_defaults (o : TokenlayOpenAIOptions) (st : TokenlayClient)
    (hmk : mkTokenlayOpenAI o = Except.ok st)
    (ht : o.timeout = some 0) (hr : o.maxRetries = some 0) :
    st.config.timeout = 60000 ∧ st.config.maxRetries = 2 ∧
    st.openaiClient.timeout = 60000 ∧ st.openaiClient.maxRetries = 2 ∧
    mkTokenlayOpenAI { o with timeout := none, maxRetries := none } = Except.ok st := by
  cases hv : validateConfig (some o.tokenlayKey) (some o.providerApiKey) with
  | error e =>
      rw [mkTokenlayOpenAI] at hmk
      rw [hv] at hmk
      simp [Bind.bind, Except.bind] at hmk
  | ok u =>
      rw [mkTokenlayOpenAI, hv] at hmk
      simp only [Bind.bind, Except.bind, pure, Except.pure, Except.ok.injEq] at hmk
      subst hmk
      refine ⟨by simp [ht, jsOrNat], by simp [hr, jsOrNat],
              by simp [ht, jsOrNat], by simp [hr, jsOrNat], ?_⟩
      rw [mkTokenlayOpenAI]
      rw [show validateConfig (some ({ o with timeout := none, maxRetries := none
            } : TokenlayOpenAIOptions).tokenlayKey)
            (some ({ o with timeout := none, maxRetries := none
            } : TokenlayOpenAIOptions).providerApiKey) =
          Except.ok u from hv]
      simp [Bind.bind, Except.bind, pure, Except.pure, ht, hr, jsOrNat]

/-- Witness for C10 at concrete options with `timeout: 0`, `maxRetries: 0`. -/
theorem mkTokenlayOpenAI_zero_defaults_witness :
    (mkTokenlayOpenAI sampleZeroOptions).map
      (fun st => (st.config.timeout, st.config.maxRetries)) = Except.ok (60000, 2) := by
  cases hmk : mkTokenlayOpenAI sampleZeroOptions with
  | error e =>
      have hok : (mkTokenlayOpenAI sampleZeroOptions).isOk = true := by decide
      rw [hmk] at hok
      simp [Except.isOk, Except.toBool] at hok
  | ok st =>
      obtain ⟨h1, h2, -⟩ := mkTokenlayOpenAI_zero_defaults sampleZeroOptions st hmk rfl rfl
      simp [Except.map, h1, h2]

/-- **C5**: `healthCheck` never raises: it resolves to `{status: "ok"}` on
every 2xx response, to `{status: "error"}` carrying the HTTP status line on
every non-2xx response, to `{status: "error"}` carrying the transport
error's message on network failure, and in all cases its status is one of
`"ok"`/`"error"`. -/
theorem healthCheck_never_raises (cfg : EffectiveConfig) (outcome : FetchOutcome) :
    (∀ r, outcome = FetchOutcome.success r → 200 ≤ r.status → r.status < 300 →
      healthCheck cfg outcome = { status := "ok", message := none }) ∧
    (∀ r, outcome = FetchOutcome.success r → ¬(200 ≤ r.status ∧ r.status < 300) →
      healthCheck cfg outcome =
        { status := "error",
          message := some ("HTTP " ++ toString r.status ++ ": " ++ r.statusText) }) ∧
    (∀ msg, outcome = FetchOutcome.failure (some msg) →
      healthCheck cfg outcome = { status := "error", message := some msg }) ∧
    ((healthCheck cfg outcome).status = "ok" ∨ (healthCheck cfg outcome).status = "error") := by
  refine ⟨?_, ?_, ?_, ?_⟩
  · rintro r rfl h1 h2
    have hok : r.ok = true := by simp [JsResponse.ok]; omega
    simp [healthCheck, hok]
  · rintro r rfl h
    have hok : r.ok = false := by
      cases hb : r.ok with
      | false => rfl
      | true => simp [JsResponse.ok] at hb; exact absurd hb h
    simp [healthCheck, hok]
  · rintro msg rfl
    simp [healthCheck]
  · cases outcome with
    | success r => by_cases h : r.ok = true <;> simp [healthCheck, h]
    | failure m => cases m <;> simp [healthCheck]

/-- Witness for C5 at the spec's examples: HTTP 200, HTTP 401, and a
network failure. -/
theorem healthCheck_never_raises_witness :
    healthCheck sampleConfig (FetchOutcome.success ⟨200, "OK"⟩) =
      { status := "ok", message := none } ∧
    healthCheck sampleConfig (FetchOutcome.success ⟨401, "Unauthorized"⟩) =
      { status := "error", message := some "HTTP 401: Unauthorized" } ∧
    healthCheck sampleConfig (FetchOutcome.failure (some "fetch failed")) =
      { status := "error", message := some "fetch failed" } := by
  refine ⟨(healthCheck_never_raises sampleConfig _).1 ⟨200, "OK"⟩ rfl (by decide) (by decide),
          ?_,
          (healthCheck_never_raises sampleConfig _).2.2.1 "fetch failed" rfl⟩
  exact (healthCheck_never_raises sampleConfig _).2.1 ⟨401, "Unauthorized"⟩ rfl (by decide)

/-- **C3** (code bug): the claim — and the repository's own integration
example, which probes `${tokenlayBaseUrl}/health` directly and then expects
`client.healthCheck()` to pass against the same server — place the health
endpoint at `<proxyBaseUrl>/health`, but the code routes the request through
`buildTokenlayUrl`, which inserts the `/v1/` segment:  the GET actually
targets `<proxyBaseUrl>/v1/health`.  The `Authorization: Bearer
<tokenlayKey>` header part of the claim does hold.  Evaluated at the
integration example's local proxy base URL. -/
theorem healthCheckRequest_versioned_url :
    healthCheckRequest sampleConfig =
      { url := "http://localhost:3000/v1/health",
        headers := [("Authorization", "Bearer tk_test_123")] } ∧
    (healthCheckRequest sampleConfig).url ≠ "http://localhost:3000/health" := by
  constructor <;> decide

/-! ## Decode-shape lemmas -/

theorem parseTokenlayHeaders_ok_shape {host : JsHost} {headers : List (String × String)}
    {md : List (String × JsValue)} (h : parseTokenlayHeaders host headers = Except.ok md) :
    ∃ w, tokenlayWarningsField host headers = Except.ok w ∧
         md = tokenlayMetadataLit host headers w := by
  rw [parseTokenlayHeaders] at h
  cases hw : tokenlayWarningsField host headers with
  | error e => rw [hw] at h; simp [Except.map] at h
  | ok w =>
      rw [hw] at h
      simp only [Except.map, Except.ok.injEq] at h
      exact ⟨w, rfl, h.symm⟩

theorem getField_lit_ruleAction (host : JsHost) (headers : List (String × String))
    (w : JsValue) :
    getField (tokenlayMetadataLit host headers w) "ruleAction" =
      .str (jsOrString (lookupHeader headers "x-tokenlay-rule-action") "allow") := rfl

theorem getField_append_undef (l : List (String × JsValue)) (a k : String) :
    getField (l ++ [(a, JsValue.undefined)]) k = getField l k := by
  rw [getField, getField, List.find?_append]
  cases h : l.find? (fun kv => kv.1 == k) with
  | some kv => simp [Option.or]
  | none =>
      simp only [Option.or]
      cases h2 : ((a, JsValue.undefined) : String × JsValue).1 == k <;>
        simp [List.find?, h2]

theorem parseTokenlayHeaders_nil_eq (host : JsHost) :
    parseTokenlayHeaders host [] =
      Except.ok (tokenlayMetadataLit host [] JsValue.undefined) := rfl

theorem tokenlayMetadataLit_nil (host : JsHost)
    (hf : host.parseFloat "0" = JsNum.val 0) (hi : host.parseInt "0" = JsNum.val 0) :
    tokenlayMetadataLit host [] JsValue.undefined =
      stubTokenlayMetadata ++ [("warnings", JsValue.undefined)] := by
  simp [tokenlayMetadataLit, stubTokenlayMetadata, lookupHeader, optStrToJs,
        jsOrString, hf, hi]

/-- **C4** (amended): the `ruleAction` field of a successful decode equals
the raw `x-tokenlay-rule-action` header value when that header is present
and non-empty, and `"allow"` when it is absent (or empty); the code performs
no runtime validation against the closed set `{allow, block, warn, queue}`,
so membership in that set holds only when the header itself carries one of
those values or is absent. -/
theorem parseTokenlayHeaders_ruleAction (host : JsHost)
    (headers : List (String × String)) (md : List (String × JsValue))
    (h : parseTokenlayHeaders host headers = Except.ok md) :
    getField md "ruleAction" =
      .str (jsOrString (lookupHeader headers "x-tokenlay-rule-action") "allow") ∧
    (lookupHeader headers "x-tokenlay-rule-action" = none →
      getField md "ruleAction" = .str "allow") := by
  obtain ⟨w, -, rfl⟩ := parseTokenlayHeaders_ok_shape h
  refine ⟨getField_lit_ruleAction host headers w, fun hnone => ?_⟩
  rw [getField_lit_ruleAction, hnone]
  rfl

/-- C4 counterexample: on the header map `{x-tokenlay-rule-action: "deny"}`
the decode succeeds and its `ruleAction` field is the string `"deny"`, which
is not a member of the closed set `{allow, block, warn, queue}` — refuting
the claim that the field always lies in that set. -/
theorem parseTokenlayHeaders_ruleAction_unvalidated :
    (parseTokenlayHeaders sampleHost [("x-tokenlay-rule-action", "deny")]).map
        (fun md => getField md "ruleAction") = Except.ok (JsValue.str "deny") ∧
    JsValue.str "deny" ∉ [JsValue.str "allow", JsValue.str "block",
                          JsValue.str "warn", JsValue.str "queue"] := by
  exact ⟨rfl, by decide⟩

/-- Witness for C4 (amended) on the empty header map: `ruleAction` decodes
to `"allow"`. -/
theorem parseTokenlayHeaders_ruleAction_witness :
    (parseTokenlayHeaders sampleHost []).map (fun md => getField md "ruleAction") =
      Except.ok (JsValue.str "allow") := by
  cases hmk : parseTokenlayHeaders sampleHost [] with
  | error e =>
      have hok : (parseTokenlayHeaders sampleHost []).isOk = true := rfl
      rw [hmk] at hok
      simp [Except.isOk, Except.toBool] at hok
  | ok md =>
      have h := (parseTokenlayHeaders_ruleAction sampleHost [] md hmk).2 rfl
      simp [Except.map, h]

/-- **C6** (amended): when the `x-tokenlay-warnings` header is present with
a non-empty value on which `JSON.parse` fails, decoding fails with that
parse error, which propagates to the caller; an empty-string value, however,
is falsy and is treated as an absent header (warnings `undefined`), with no
error raised. -/
theorem parseTokenlayHeaders_warnings_propagates (host : JsHost)
    (headers : List (String × String)) (s e : String)
    (hlk : lookupHeader headers "x-tokenlay-warnings" = some s) (hs : s ≠ "")
    (hjson : host.jsonParse s = Except.error e) :
    parseTokenlayHeaders host headers = Except.error e := by
  rw [parseTokenlayHeaders, tokenlayWarningsField, hlk]
  simp [hs, hjson, Except.map]

/-- C6 counterexample: the header map `{x-tokenlay-warnings: ""}` has the
warnings header present with a value that is not valid JSON
(`JSON.parse("")` throws), yet decoding succeeds and silently yields
`undefined` for the warnings field — refuting the claim for this input. -/
theorem parseTokenlayHeaders_empty_warnings_silent :
    sampleHost.jsonParse "" = Except.error "Unexpected token in JSON" ∧
    lookupHeader [("x-tokenlay-warnings", "")] "x-tokenlay-warnings" = some "" ∧
    (parseTokenlayHeaders sampleHost [("x-tokenlay-warnings", "")]).map
        (fun md => getField md "warnings") = Except.ok JsValue.undefined := by
  exact ⟨rfl, rfl, rfl⟩

/-- Witness for C6 (amended) at the spec's example
`{x-tokenlay-warnings: "not-json"}` with a host whose `JSON.parse` throws on
it, as the real one does. -/
theorem parseTokenlayHeaders_warnings_propagates_witness :
    parseTokenlayHeaders sampleHost [("x-tokenlay-warnings", "not-json")] =
      Except.error "Unexpected token in JSON" := by
  exact parseTokenlayHeaders_warnings_propagates sampleHost _ "not-json" _ rfl
    (by decide) rfl

/-- **C1** (amended): for every metadata map with only defined string
values, whenever decoding the encoded headers succeeds, the decoded record's
key set is the decoder's fixed nine-name schema (`ruleId`, `ruleAction`,
`limitExceeded`, `cost`, `tokensUsed`, `inputTokens`, `outputTokens`,
`duration`, `warnings`), independent of the metadata map — not the key set
of the input map with the `x-tokenlay-` prefix stripped. -/
theorem parseTokenlayHeaders_metadataToHeaders_keys
    (m : List (String × Option String)) (hdef : ∀ kv ∈ m, kv.2 ≠ none)
    (host : JsHost) (md : List (String × JsValue))
    (h : parseTokenlayHeaders host (metadataToHeaders m) = Except.ok md) :
    md.map Prod.fst =
      ["ruleId", "ruleAction", "limitExceeded", "cost", "tokensUsed",
       "inputTokens", "outputTokens", "duration", "warnings"] := by
  clear hdef
  obtain ⟨w, -, rfl⟩ := parseTokenlayHeaders_ok_shape h
  rfl

/-- C1 counterexample: for the metadata map `{a: "1"}` (all values defined),
the encoded headers strip back to the key set `{a}`, but the decode of those
headers succeeds with the fixed nine-name key set, which does not match
`{a}` even up to header-name case — refuting the round-trip key-set claim. -/
theorem parseTokenlayHeaders_metadataToHeaders_keyset_mismatch :
    metadataToHeaders [("a", some "1")] = [("x-tokenlay-a", "1")] ∧
    (parseTokenlayHeaders sampleHost (metadataToHeaders [("a", some "1")])).map
        (fun md => keySetMatchesModCase (md.map Prod.fst) ["a"]) =
      Except.ok false := by
  exact ⟨rfl, rfl⟩

/-- Witness for C1 (amended) at the metadata map `{a: "1"}`. -/
theorem parseTokenlayHeaders_metadataToHeaders_keys_witness :
    (parseTokenlayHeaders sampleHost (metadataToHeaders [("a", some "1")])).map
        (fun md => md.map Prod.fst) =
      Except.ok ["ruleId", "ruleAction", "limitExceeded", "cost", "tokensUsed",
                 "inputTokens", "outputTokens", "duration", "warnings"] := by
  cases hmk : parseTokenlayHeaders sampleHost (metadataToHeaders [("a", some "1")]) with
  | error e =>
      have hok : (parseTokenlayHeaders sampleHost
          (metadataToHeaders [("a", some "1")])).isOk = true := rfl
      rw [hmk] at hok
      simp [Except.isOk, Except.toBool] at hok
  | ok md =>
      have h := parseTokenlayHeaders_metadataToHeaders_keys [("a", some "1")]
        (by decide) sampleHost md hmk
      simp [Except.map, h]

/-- **C2**: after a resolved chat-completion call, a metadata record is
attached under the private `_tokenlay` key iff the raw response carries a
request identifier (a truthy `_request_id`); the attached record reads
field-for-field like the header decode applied to an empty header map (all
defaults), for any host agreeing with JS on `parseFloat("0")` and
`parseInt("0", 10)`; and when nothing was attached, `getTokenlayMetadata`
returns `none` (null) rather than failing — it is a pure read of the
attached field. -/
theorem createChatCompletion_metadata (response : RawChatResponse) (host : JsHost)
    (hf : host.parseFloat "0" = JsNum.val 0) (hi : host.parseInt "0" = JsNum.val 0) :
    (jsTruthy response.requestId = true →
      (createChatCompletion response).tokenlay = some stubTokenlayMetadata ∧
      ∃ md, parseTokenlayHeaders host [] = Except.ok md ∧
        ∀ k, getField stubTokenlayMetadata k = getField md k) ∧
    (jsTruthy response.requestId = false →
      (createChatCompletion response).tokenlay = none ∧
      getTokenlayMetadata (createChatCompletion response) = none) ∧
    getTokenlayMetadata (createChatCompletion response) =
      (createChatCompletion response).tokenlay := by
  refine ⟨fun htr => ⟨by simp [createChatCompletion, htr], ?_⟩,
          fun hfa => ⟨by simp [createChatCompletion, hfa],
                      by simp [createChatCompletion, getTokenlayMetadata, hfa]⟩,
          ?_⟩
  · refine ⟨tokenlayMetadataLit host [] JsValue.undefined,
            parseTokenlayHeaders_nil_eq host, fun k => ?_⟩
    rw [tokenlayMetadataLit_nil host hf hi, getField_append_undef]
  · cases h : (createChatCompletion response).tokenlay <;>
      simp [getTokenlayMetadata, h]

/-- Witness for C2: a response with `_request_id = "req_test_123"` gets the
record attached; a response without `_request_id` yields `null` from
`getTokenlayMetadata`. -/
theorem createChatCompletion_metadata_witness :
    (createChatCompletion ⟨some "req_test_123"⟩).tokenlay =
      some stubTokenlayMetadata ∧
    getTokenlayMetadata (createChatCompletion ⟨none⟩) = none := by
  have h1 := (createChatCompletion_metadata ⟨some "req_test_123"⟩ sampleHost
    rfl rfl).1 (by decide)
  have h2 := (createChatCompletion_metadata ⟨none⟩ sampleHost rfl rfl).2.1 rfl
  exact ⟨h1.1, h2.2⟩

end TokenlaySDK
